import Mathlib

/-!
# Verification of the harness-gimp bridge core

Shallow embedding of `src/harness_gimp/bridge/operations.py`: the snapshot
history store (`_snapshot_image`, `_undo_redo`, `_maybe_auto_snapshot`),
the action dispatcher (`_run_action` with its mutating-action set), a
representative subset of `handle_method` handlers, and the curve-point
normalization embedded in the batch script template (`_script`, curves
action).

Modelling conventions:
* Paths are plain strings; `Path.resolve()` is modelled as the identity
  (paths are treated as already canonical absolute paths).
* File contents are `List Nat` (byte lists); the filesystem and the
  persisted history document are association lists inside a single
  state record `St`.
* The second-resolution UTC timestamp used in snapshot file names is
  modelled by a logical clock in the state, bumped once per snapshot.
* Python floats are modelled as rationals (the curves normalization uses
  only comparisons, division by 255, clamping and round-half-to-even,
  all exact on the rationals); Python `round` (banker's rounding) is
  `pyRound`.
* The external editor subprocess is an oracle `Editor`; a ghost event
  log in the state records every snapshot creation and every editor
  invocation, so ordering claims ("before any subprocess is spawned")
  become statements about the log.
* Exceptions raised by `handle_method` are `Except` errors paired with
  the state at the moment of the raise (persisted mutations that
  happened before the raise are visible in that state, exactly as the
  on-disk JSON document would be).
-/

deriving instance DecidableEq for Except

namespace HarnessGimp

/-- Error codes of `BridgeOperationError`, plus `OS_RAISE` for raw Python
exceptions (e.g. `shutil.copyfile` on a missing file) that escape without
being wrapped. -/
inductive ErrCode
  | NOT_FOUND
  | INVALID_INPUT
  | ERROR
  | OS_RAISE
deriving Repr, DecidableEq

/-- One value of the `images` mapping in the history document:
`{"snapshots": [...], "index": N}`. -/
structure Entry where
  snapshots : List String
  index : Int
deriving Repr, DecidableEq

/-- File contents, as a list of bytes. -/
abbrev Bytes := List Nat

/-- Ghost log entries: a snapshot creation (image path and description)
or an external-editor invocation (action name). -/
inductive Event
  | snap (image : String) (desc : String)
  | invoke (action : String)
deriving Repr, DecidableEq

/-- The world state: the `images` mapping of the persisted history
document, the filesystem, the timestamp clock, and the ghost event log. -/
structure St where
  images : List (String × Entry)
  files : List (String × Bytes)
  clock : Nat
  events : List Event
deriving Repr, DecidableEq

/-- Association-list lookup (dict access keyed by path strings). -/
def lookupA {α : Type} (m : List (String × α)) (k : String) : Option α :=
  match m with
  | [] => none
  | (k₁, v) :: rest => if k₁ = k then some v else lookupA rest k

/-- Association-list update/insert (dict assignment). -/
def insertA {α : Type} (m : List (String × α)) (k : String) (v : α) :
    List (String × α) :=
  match m with
  | [] => [(k, v)]
  | (k₁, v₁) :: rest =>
    if k₁ = k then (k, v) :: rest else (k₁, v₁) :: insertA rest k v

/-- Python list slicing `l[:stop]` for a possibly negative `stop`. -/
def pyTake (l : List String) (stop : Int) : List String :=
  if 0 ≤ stop then l.take stop.toNat
  else l.take ((l.length : Int) + stop).toNat

/-- Characters kept verbatim by `_safe_name` (the class `[a-zA-Z0-9._-]`). -/
def safeChar (c : Char) : Bool :=
  c.isAlpha || c.isDigit || c = '.' || c = '_' || c = '-'

/-- Replace every maximal run of unsafe characters by a single hyphen
(`re.sub(r"[^a-zA-Z0-9._-]+", "-", text)`); the `Bool` flag records
whether the previous character was part of an unsafe run. -/
def collapseUnsafe : List Char → Bool → List Char
  | [], _ => []
  | c :: rest, inRun =>
    if safeChar c then c :: collapseUnsafe rest false
    else if inRun then collapseUnsafe rest true
    else '-' :: collapseUnsafe rest true

/-- `str.strip("-")`: drop hyphens from both ends. -/
def stripDashes (l : List Char) : List Char :=
  ((l.dropWhile (fun c => c = '-')).reverse.dropWhile (fun c => c = '-')).reverse

/-- `_safe_name`: sanitize to `[A-Za-z0-9._-]` runs joined by single
hyphens, strip edge hyphens, defaulting to `"snapshot"` when empty. -/
def safe_name (text : String) : String :=
  let cleaned := stripDashes (collapseUnsafe text.data false)
  if cleaned = [] then "snapshot" else String.mk cleaned

/-- `HISTORY_ROOT`: the project-local hidden directory. -/
def HISTORY_ROOT : String := ".harness-gimp-history"

/-- The last path component (text after the final slash). -/
def lastComponent (p : String) : String :=
  String.mk ((p.data.reverse.takeWhile (fun c => c ≠ '/')).reverse)

/-- `pathlib` stem/suffix split of a file name: the suffix starts at the
last dot, provided that dot is neither the first nor the last character. -/
def splitStemSuffix (name : String) : String × String :=
  let rev := name.data.reverse
  let afterDot := rev.takeWhile (fun c => c ≠ '.')
  if afterDot.length = rev.length then (name, "")
  else if afterDot = [] then (name, "")
  else if rev.drop (afterDot.length + 1) = [] then (name, "")
  else (String.mk (rev.drop (afterDot.length + 1)).reverse,
        String.mk ('.' :: afterDot.reverse))

/-- `Path(image).stem`. -/
def pathStem (p : String) : String := (splitStemSuffix (lastComponent p)).1

/-- `Path(image).suffix`. -/
def pathSuffix (p : String) : String := (splitStemSuffix (lastComponent p)).2

/-- The timestamp text; abstraction of `strftime("%Y%m%dT%H%M%SZ")` over
the logical clock. -/
def stampText (t : Nat) : String := toString t

/-- `str.lower()` on the characters of a string. -/
def lowerTxt (s : String) : String := String.mk (s.data.map Char.toLower)

/-- The snapshot file path
`HISTORY_ROOT / safe_name(stem) / f"{stamp}__{safe_name(description)}{suffix.lower()}"`. -/
def snapshotPath (image : String) (description : String) (t : Nat) : String :=
  HISTORY_ROOT ++ "/" ++ safe_name (pathStem image) ++ "/" ++ stampText t
    ++ "__" ++ safe_name description ++ lowerTxt (pathSuffix image)

/-- Result dictionary of `_snapshot_image`. -/
structure SnapRes where
  snapshot : String
  index : Int
  count : Nat
deriving Repr, DecidableEq

/-- `_snapshot_image`: copy the live file to a fresh snapshot path,
truncate the entry's snapshot list after the cursor, append, advance the
cursor to the new last index, persist. A missing live file makes
`shutil.copyfile` raise before the document is touched. -/
def snapshot_image (image : String) (description : String) (st : St) :
    Except ErrCode SnapRes × St :=
  match lookupA st.files image with
  | none => (.error .OS_RAISE, st)
  | some bytes =>
    let snap := snapshotPath image description st.clock
    let entry := (lookupA st.images image).getD ⟨[], -1⟩
    let kept := pyTake entry.snapshots (entry.index + 1)
    let snaps := kept ++ [snap]
    let entry₁ : Entry := ⟨snaps, (snaps.length : Int) - 1⟩
    let st₁ : St :=
      { images := insertA st.images image entry₁
        files := insertA st.files snap bytes
        clock := st.clock + 1
        events := st.events ++ [.snap image description] }
    (.ok ⟨snap, entry₁.index, snaps.length⟩, st₁)

/-- Result dictionary of `_undo_redo`. -/
structure UndoRes where
  image : String
  snapshot : String
  index : Int
  count : Nat
deriving Repr, DecidableEq

/-- `_undo_redo`: move the cursor by `direction`, failing with
`INVALID_INPUT` when there is no history entry, no snapshots, or the
target index is out of range; copy the target snapshot over the live
file and persist the new cursor. -/
def undo_redo (image : String) (direction : Int) (st : St) :
    Except ErrCode UndoRes × St :=
  match lookupA st.images image with
  | none => (.error .INVALID_INPUT, st)
  | some entry =>
    if entry.snapshots = [] then (.error .INVALID_INPUT, st)
    else
      let nextIdx := entry.index + direction
      if nextIdx < 0 ∨ (entry.snapshots.length : Int) ≤ nextIdx then
        (.error .INVALID_INPUT, st)
      else
        let target := entry.snapshots.getD nextIdx.toNat ""
        match lookupA st.files target with
        | none => (.error .NOT_FOUND, st)
        | some bytes =>
          let st₁ : St :=
            { images := insertA st.images image { entry with index := nextIdx }
              files := insertA st.files image bytes
              clock := st.clock
              events := st.events }
          (.ok ⟨image, target, nextIdx, entry.snapshots.length⟩, st₁)

/-- `params.get("output") or image` / `_output_or_input`: the declared
output path, defaulting to the input image when absent or empty (the
empty string is falsy in Python). -/
def outputOrInput (output : Option String) (image : String) : String :=
  match output with
  | none => image
  | some o => if o = "" then image else o

/-- `_maybe_auto_snapshot`: push an `auto-before-<label>` snapshot when
the resolved output path equals the resolved input path. -/
def maybe_auto_snapshot (image : String) (output : Option String)
    (label : String) (st : St) : Except ErrCode Unit × St :=
  if outputOrInput output image = image then
    match snapshot_image image ("auto-before-" ++ label) st with
    | (.ok _, st₁) => (.ok (), st₁)
    | (.error e, st₁) => (.error e, st₁)
  else (.ok (), st)

/-- The external batch editor, as an oracle: `edit` maps an action name
and the loaded input bytes to the bytes it saves; `dims` is what the
`inspect` action reports for given file bytes. Invocations that the
claims exercise are modelled as succeeding whenever the input file
loads. -/
structure Editor where
  edit : String → Bytes → Bytes
  dims : Bytes → Int × Int

/-- The JSON payload a handler passes to `_run_action` (only the keys
the modelled methods use; absent keys are `none`). -/
structure Payload where
  image : String := ""
  output : Option String := none
  width : Option Int := none
  height : Option Int := none
  x : Option Int := none
  y : Option Int := none
  layerIndex : Option Int := none
  opacity : Option ℚ := none
  brightness : Option ℚ := none
  contrast : Option ℚ := none
deriving Repr, DecidableEq

/-- The parsed `HARNESS_JSON` result line of an action. -/
inductive ActionOut
  | inspected (width height : Int)
  | did (p : Payload)
deriving Repr, DecidableEq

/-- The `mutating` set of `_run_action`, verbatim from the source. -/
def mutatingActions : List String :=
  ["resize", "crop", "rotate", "flip", "canvas_size",
   "brightness_contrast", "levels", "curves", "hue_saturation",
   "color_balance", "color_temperature", "invert", "desaturate",
   "blur", "gaussian_blur", "sharpen", "unsharp_mask",
   "noise_reduction", "layer_add", "layer_remove", "layer_rename",
   "layer_opacity", "layer_blend_mode", "layer_duplicate",
   "layer_merge_down", "layer_reorder", "selection_all",
   "selection_none", "selection_invert", "selection_feather",
   "selection_rectangle", "selection_ellipse", "mask_add",
   "mask_apply", "text_add", "text_update", "stroke_selection"]

/-- `_run_action`: spawn the editor subprocess (logged as an `invoke`
event); the script loads the input image (failing the invocation when it
is missing), applies the action and saves to the payload's output path
(`inspect` only reads). Afterwards, when the action is in the mutating
set and the payload's output resolves to its input, push an
`auto-after-<action>` snapshot. -/
def run_action (ed : Editor) (action : String) (p : Payload) (st : St) :
    Except ErrCode ActionOut × St :=
  let st₀ : St := { st with events := st.events ++ [.invoke action] }
  match lookupA st₀.files p.image with
  | none => (.error .ERROR, st₀)
  | some bytes =>
    if action = "inspect" then
      ((fun d => .ok (.inspected d.1 d.2)) (ed.dims bytes), st₀)
    else
      let out := outputOrInput p.output p.image
      let st₁ : St := { st₀ with files := insertA st₀.files out (ed.edit action bytes) }
      if action ∈ mutatingActions ∧ out = p.image ∧
          (lookupA st₁.files p.image).isSome then
        match snapshot_image p.image ("auto-after-" ++ action) st₁ with
        | (.ok _, st₂) => (.ok (.did p), st₂)
        | (.error e, st₂) => (.error e, st₂)
      else (.ok (.did p), st₁)

/-- The request parameter mapping (only the keys the modelled methods
read; values are modelled as already carrying their JSON type). -/
structure Params where
  image : Option String := none
  output : Option String := none
  width : Option Int := none
  height : Option Int := none
  layerIndex : Option Int := none
  layerId : Option Int := none
  opacity : Option ℚ := none
  brightness : Option ℚ := none
  contrast : Option ℚ := none
deriving Repr, DecidableEq

/-- `_require_path`: the path must exist, else `NOT_FOUND`. -/
def require_path (p : String) (st : St) : Except ErrCode String :=
  if (lookupA st.files p).isSome then .ok p else .error .NOT_FOUND

/-- `_layer_index`: `params.get("layerIndex", params.get("layerId", default))`
(values are modelled as already-coerced integers). -/
def layer_index (p : Params) (default : Int) : Int :=
  (p.layerIndex.or p.layerId).getD default

/-- `handle_method` case `"image.resize"`: require the image path, take
the auto-before snapshot when in place, then validate `width`/`height`,
then dispatch the `resize` action. -/
def handleResize (ed : Editor) (p : Params) (st : St) :
    Except ErrCode ActionOut × St :=
  match require_path (p.image.getD "") st with
  | .error e => (.error e, st)
  | .ok image =>
    match maybe_auto_snapshot image p.output "resize" st with
    | (.error e, st₁) => (.error e, st₁)
    | (.ok _, st₁) =>
      let width := p.width.getD 0
      let height := p.height.getD 0
      if width ≤ 0 ∨ height ≤ 0 then (.error .INVALID_INPUT, st₁)
      else
        run_action ed "resize"
          { image := image, width := some width, height := some height
            output := some (outputOrInput p.output image) } st₁

/-- `handle_method` case `"image.undo"`: require the image path, then
`_undo_redo(image, -1)`. -/
def handleUndo (p : Params) (st : St) : Except ErrCode UndoRes × St :=
  match require_path (p.image.getD "") st with
  | .error e => (.error e, st)
  | .ok image => undo_redo image (-1) st

/-- `handle_method` case `"image.redo"`: require the image path, then
`_undo_redo(image, 1)`. -/
def handleRedo (p : Params) (st : St) : Except ErrCode UndoRes × St :=
  match require_path (p.image.getD "") st with
  | .error e => (.error e, st)
  | .ok image => undo_redo image 1 st

/-- `handle_method` case `"image.crop_center"`: require the path, take
the auto-before snapshot (label `crop-center`), validate
`width`/`height > 0`, run a live `inspect` to obtain the source
dimensions, reject requests exceeding them, then dispatch `crop` at the
centered offsets `(srcW - width) // 2`, `(srcH - height) // 2`. -/
def handleCropCenter (ed : Editor) (p : Params) (st : St) :
    Except ErrCode ActionOut × St :=
  match require_path (p.image.getD "") st with
  | .error e => (.error e, st)
  | .ok image =>
    match maybe_auto_snapshot image p.output "crop-center" st with
    | (.error e, st₁) => (.error e, st₁)
    | (.ok _, st₁) =>
      let width := p.width.getD 0
      let height := p.height.getD 0
      if width ≤ 0 ∨ height ≤ 0 then (.error .INVALID_INPUT, st₁)
      else
        match run_action ed "inspect" { image := image } st₁ with
        | (.error e, st₂) => (.error e, st₂)
        | (.ok (.did _), st₂) => (.error .ERROR, st₂)
        | (.ok (.inspected srcW srcH), st₂) =>
          if srcW < width ∨ srcH < height then (.error .INVALID_INPUT, st₂)
          else
            run_action ed "crop"
              { image := image, width := some width, height := some height
                x := some (Int.fdiv (srcW - width) 2)
                y := some (Int.fdiv (srcH - height) 2)
                output := some (outputOrInput p.output image) } st₂

/-- `handle_method` case `"layer.opacity"`: require the path, take the
auto-before snapshot (label `layer-opacity`), validate
`opacity ∈ [0, 100]`, then dispatch `layer_opacity` with
`int(params.get("layerIndex", -1))` — the `layerId` key is not read. -/
def handleLayerOpacity (ed : Editor) (p : Params) (st : St) :
    Except ErrCode ActionOut × St :=
  match require_path (p.image.getD "") st with
  | .error e => (.error e, st)
  | .ok image =>
    match maybe_auto_snapshot image p.output "layer-opacity" st with
    | (.error e, st₁) => (.error e, st₁)
    | (.ok _, st₁) =>
      let opacity := p.opacity.getD (-1)
      if opacity < 0 ∨ 100 < opacity then (.error .INVALID_INPUT, st₁)
      else
        run_action ed "layer_opacity"
          { image := image, layerIndex := some (p.layerIndex.getD (-1))
            opacity := some opacity
            output := some (outputOrInput p.output image) } st₁

/-- `handle_method` case `"mask.apply"`: require the path, take the
auto-before snapshot (label `mask-apply`), then dispatch `mask_apply`
with `_layer_index(params, -1)` (alias-aware). -/
def handleMaskApply (ed : Editor) (p : Params) (st : St) :
    Except ErrCode ActionOut × St :=
  match require_path (p.image.getD "") st with
  | .error e => (.error e, st)
  | .ok image =>
    match maybe_auto_snapshot image p.output "mask-apply" st with
    | (.error e, st₁) => (.error e, st₁)
    | (.ok _, st₁) =>
      run_action ed "mask_apply"
        { image := image, layerIndex := some (layer_index p (-1))
          output := some (outputOrInput p.output image) } st₁

/-- `handle_method` case `"adjust.brightness_contrast"`: require the
path, take the auto-before snapshot — with the hyphenated label
`brightness-contrast` — then dispatch the `brightness_contrast` action. -/
def handleBrightnessContrast (ed : Editor) (p : Params) (st : St) :
    Except ErrCode ActionOut × St :=
  match require_path (p.image.getD "") st with
  | .error e => (.error e, st)
  | .ok image =>
    match maybe_auto_snapshot image p.output "brightness-contrast" st with
    | (.error e, st₁) => (.error e, st₁)
    | (.ok _, st₁) =>
      run_action ed "brightness_contrast"
        { image := image, brightness := some (p.brightness.getD 0)
          contrast := some (p.contrast.getD 0)
          layerIndex := some (p.layerIndex.getD 0)
          output := some (outputOrInput p.output image) } st₁

/-- A raw curve point as supplied in the request JSON: an `{x,y}`
mapping (absent keys default to `0.0`), an ordered pair (a list or tuple
of length ≥ 2, of which the first two entries are read), or anything
else (which the script rejects). -/
inductive RawPoint
  | obj (x y : Option ℚ)
  | pair (x y : ℚ)
  | malformed
deriving Repr, DecidableEq

/-- Extraction of `(x_raw, y_raw)` from one point, as in the `curves`
branch of the script; a malformed point raises, which surfaces as an
invocation failure (`ERROR`). -/
def rawXY : RawPoint → Except ErrCode (ℚ × ℚ)
  | .obj x y => .ok (x.getD 0, y.getD 0)
  | .pair x y => .ok (x, y)
  | .malformed => .error .ERROR

/-- Clamp to the unit interval: `max(0.0, min(1.0, v))`. -/
def clamp01 (v : ℚ) : ℚ := max 0 (min 1 v)

/-- Per-point normalization: when either coordinate exceeds `1.0` both
are divided by `255`, then both are clamped to `[0, 1]`. -/
def normalizeOne (p : ℚ × ℚ) : ℚ × ℚ :=
  let q := if 1 < p.1 ∨ 1 < p.2 then (p.1 / 255, p.2 / 255) else p
  (clamp01 q.1, clamp01 q.2)

/-- Python `round`: round half to even (banker's rounding). -/
def pyRound (q : ℚ) : ℤ :=
  let f := ⌊q⌋
  if q - f < 1/2 then f
  else if 1/2 < q - f then f + 1
  else if f % 2 = 0 then f else f + 1

/-- The x-comparison used to sort points (`normalized.sort(key = x)`). -/
def leX (a b : ℚ × ℚ) : Prop := a.1 ≤ b.1

instance : DecidableRel leX := fun a b => inferInstanceAs (Decidable (a.1 ≤ b.1))

instance : IsTotal (ℚ × ℚ) leX := ⟨fun a b => le_total a.1 b.1⟩

instance : IsTrans (ℚ × ℚ) leX := ⟨fun _ _ _ h₁ h₂ => le_trans h₁ h₂⟩

/-- Everything the `curves` branch computes from the point list before
calling the editor. -/
structure CurvesOut where
  points : List (ℚ × ℚ)
  black : ℤ
  white : ℤ
deriving Repr, DecidableEq

/-- The point-extraction loop of the `curves` branch: stops at the
first malformed point. -/
def mapPoints : List RawPoint → Except ErrCode (List (ℚ × ℚ))
  | [] => .ok []
  | p :: rest =>
    match rawXY p with
    | .error e => .error e
    | .ok xy =>
      match mapPoints rest with
      | .error e => .error e
      | .ok out => .ok (xy :: out)

/-- The `curves` point pipeline of the batch script: reject lists
shorter than 2, extract coordinates, normalize each point, sort by x
(a stable sort, as Python's), compute `black`/`white` by rounding the
first and last x onto the 0–255 scale, and force
`white = min(255, black + 1)` when `white ≤ black`. -/
def curvesNormalize (pts : List RawPoint) : Except ErrCode CurvesOut :=
  if pts.length < 2 then .error .ERROR
  else
    match mapPoints pts with
    | .error e => .error e
    | .ok xys =>
      let sorted := List.insertionSort leX (xys.map normalizeOne)
      let black : ℤ := max 0 (min 255 (pyRound ((sorted.headD (0, 0)).1 * 255)))
      let whiteRaw : ℤ := max 1 (min 255 (pyRound ((sorted.getLastD (0, 0)).1 * 255)))
      let white : ℤ := if whiteRaw ≤ black then min 255 (black + 1) else whiteRaw
      .ok ⟨sorted, black, white⟩

/-- One operation of the snapshot history store. -/
inductive HistOp
  | snap (image : String) (description : String)
  | undo (image : String)
  | redo (image : String)
deriving Repr, DecidableEq

/-- Apply one history operation to the state (the persisted document is
whatever the state holds when the operation returns or raises). -/
def applyOp (op : HistOp) (st : St) : St :=
  match op with
  | .snap i d => (snapshot_image i d st).2
  | .undo i => (undo_redo i (-1) st).2
  | .redo i => (undo_redo i 1 st).2

/-- Apply a sequence of history operations, in order. -/
def applyOps (ops : List HistOp) (st : St) : St :=
  ops.foldl (fun s o => applyOp o s) st

/-- The per-entry invariant of the spec: `0 ≤ index < len(snapshots)`
whenever `snapshots` is non-empty, and `index = -1` iff `snapshots` is
empty. -/
def entryInv (e : Entry) : Prop :=
  (e.snapshots = [] ∨ (0 ≤ e.index ∧ e.index < (e.snapshots.length : Int))) ∧
  (e.index = -1 ↔ e.snapshots = [])

instance (e : Entry) : Decidable (entryInv e) := by
  unfold entryInv; infer_instance

/-- The document-level invariant: every image entry of the history
document satisfies `entryInv`. -/
def docInv (st : St) : Prop := ∀ p ∈ st.images, entryInv p.2

instance (st : St) : Decidable (docInv st) :=
  inferInstanceAs (Decidable (∀ p ∈ st.images, entryInv p.2))

/-- Iterate `_undo_redo` in one direction, failing fast. -/
def repeatStep (image : String) (direction : Int) :
    Nat → St → Except ErrCode St
  | 0, st => .ok st
  | k + 1, st =>
    match undo_redo image direction st with
    | (.ok _, st₁) => repeatStep image direction k st₁
    | (.error e, _) => .error e

theorem mem_insertA {α : Type} {m : List (String × α)} {k : String} {v : α}
    {p : String × α} (h : p ∈ insertA m k v) : p ∈ m ∨ p = (k, v) := by
  induction m with
  | nil => simpa [insertA] using h
  | cons q rest ih =>
    obtain ⟨k₁, v₁⟩ := q
    unfold insertA at h
    by_cases hk : k₁ = k
    · simp only [hk, if_true, List.mem_cons] at h
      rcases h with h | h
      · right; exact h
      · left; exact List.mem_cons_of_mem _ h
    · simp only [hk, if_false, List.mem_cons] at h
      rcases h with h | h
      · left; exact h ▸ List.mem_cons_self _ _
      · rcases ih h with h₁ | h₁
        · left; exact List.mem_cons_of_mem _ h₁
        · right; exact h₁

theorem lookupA_insertA_self {α : Type} (m : List (String × α)) (k : String)
    (v : α) : lookupA (insertA m k v) k = some v := by
  induction m with
  | nil => simp [insertA, lookupA]
  | cons q rest ih =>
    obtain ⟨k₁, v₁⟩ := q
    by_cases hk : k₁ = k
    · simp [insertA, lookupA, hk]
    · simp [insertA, lookupA, hk, ih]

theorem lookupA_insertA_ne {α : Type} (m : List (String × α)) {k k' : String}
    (v : α) (h : k ≠ k') : lookupA (insertA m k v) k' = lookupA m k' := by
  induction m with
  | nil => simp [insertA, lookupA, h]
  | cons q rest ih =>
    obtain ⟨k₁, v₁⟩ := q
    by_cases hk : k₁ = k
    · subst hk
      simp [insertA, lookupA, h]
    · simp only [insertA, hk, if_false]
      by_cases hk' : k₁ = k'
      · simp [lookupA, hk']
      · simp [lookupA, hk', ih]

theorem entryInv_snap (kept : List String) (snap : String) :
    entryInv ⟨kept ++ [snap], ((kept ++ [snap]).length : Int) - 1⟩ := by
  unfold entryInv
  dsimp only
  have hlen : ((kept ++ [snap]).length : Int) = (kept.length : Int) + 1 := by
    simp
  refine ⟨Or.inr ⟨by omega, by omega⟩, ?_, fun h => absurd h (by simp)⟩
  intro h
  exfalso
  omega

theorem docInv_snapshot (i d : String) (st : St) (h : docInv st) :
    docInv (snapshot_image i d st).2 := by
  unfold snapshot_image
  cases hf : lookupA st.files i with
  | none => exact h
  | some bytes =>
    intro p hp
    rcases mem_insertA hp with hm | hm
    · exact h p hm
    · subst hm
      exact entryInv_snap _ _

theorem docInv_undo_redo (i : String) (dir : Int) (st : St) (h : docInv st) :
    docInv (undo_redo i dir st).2 := by
  unfold undo_redo
  cases he : lookupA st.images i with
  | none => exact h
  | some entry =>
    by_cases hs : entry.snapshots = []
    · simp only [hs, if_true]; exact h
    · simp only [hs, if_false]
      by_cases hr : entry.index + dir < 0 ∨ (entry.snapshots.length : Int) ≤ entry.index + dir
      · simp only [hr, if_true]; exact h
      · simp only [hr, if_false]
        cases ht : lookupA st.files (entry.snapshots.getD (entry.index + dir).toNat "") with
        | none => exact h
        | some bytes =>
          intro p hp
          rcases mem_insertA hp with hm | hm
          · exact h p hm
          · subst hm
            push_neg at hr
            refine ⟨Or.inr ⟨hr.1, hr.2⟩, ?_, fun hc => absurd hc hs⟩
            intro hidx
            exfalso
            have hidx₁ : entry.index + dir = -1 := hidx
            omega

theorem docInv_applyOp (op : HistOp) (st : St) (h : docInv st) :
    docInv (applyOp op st) := by
  cases op with
  | snap i d => exact docInv_snapshot i d st h
  | undo i => exact docInv_undo_redo i (-1) st h
  | redo i => exact docInv_undo_redo i 1 st h

/-- C1: every image entry of the history document satisfies the
snapshot-history invariant — `0 ≤ index < len(snapshots)` when
`snapshots` is non-empty and `index = -1` iff `snapshots` is empty —
after any sequence of snapshot, undo and redo operations applied to a
document whose entries satisfy it. -/
theorem C1_snapshot_history_invariant (ops : List HistOp) (st : St)
    (h : docInv st) : docInv (applyOps ops st) := by
  induction ops generalizing st with
  | nil => exact h
  | cons op rest ih =>
    have : applyOps (op :: rest) st = applyOps rest (applyOp op st) := by
      simp [applyOps]
    rw [this]
    exact ih _ (docInv_applyOp op st h)

/-- C1 witness: starting from an empty document with one live file, the
sequence snapshot, snapshot, undo, snapshot, undo, redo keeps the
invariant. -/
theorem C1_snapshot_history_invariant_witness :
    docInv (applyOps
      [.snap "a.png" "one", .snap "a.png" "two", .undo "a.png",
       .snap "a.png" "three", .undo "a.png", .redo "a.png"]
      ⟨[], [("a.png", [7])], 0, []⟩) :=
  C1_snapshot_history_invariant _ _ (by decide)

/-- C2: a snapshot push on an entry with snapshot list `s` and cursor
`i` truncates everything after the cursor and appends: the stored list
becomes `s[0..i]` followed by the new snapshot path and the cursor
becomes the new last index `i + 1`; the returned dictionary reports the
new path, index and count. -/
theorem C2_snapshot_push (st : St) (image description : String) (e : Entry)
    (he : lookupA st.images image = some e)
    (hb : (lookupA st.files image).isSome)
    (hinv : entryInv e) :
    (snapshot_image image description st).1 =
      .ok ⟨snapshotPath image description st.clock, e.index + 1,
        (e.index + 1).toNat + 1⟩ ∧
    lookupA (snapshot_image image description st).2.images image =
      some ⟨e.snapshots.take (e.index + 1).toNat
        ++ [snapshotPath image description st.clock], e.index + 1⟩ := by
  obtain ⟨bytes, hbv⟩ := Option.isSome_iff_exists.mp hb
  have hidx : 0 ≤ e.index + 1 := by
    rcases hinv.1 with h | h
    · have h₂ := hinv.2.mpr h
      omega
    · omega
  have hle : (e.index + 1).toNat ≤ e.snapshots.length := by
    rcases hinv.1 with h | h
    · have h₂ := hinv.2.mpr h
      rw [h]
      simp [h₂]
    · omega
  have hkl : (e.snapshots.take (e.index + 1).toNat).length
      = (e.index + 1).toNat := by
    rw [List.length_take]
    omega
  have hpy : pyTake e.snapshots (e.index + 1)
      = e.snapshots.take (e.index + 1).toNat := by
    unfold pyTake
    rw [if_pos hidx]
  simp only [snapshot_image, hbv, he, Option.getD_some, hpy]
  have hlen₂ : (e.snapshots.take (e.index + 1).toNat
      ++ [snapshotPath image description st.clock]).length
      = (e.index + 1).toNat + 1 := by
    rw [List.length_append, hkl, List.length_singleton]
  have hX : ((((e.index + 1).toNat + 1 : Nat)) : Int) - 1 = e.index + 1 := by
    omega
  refine ⟨?_, ?_⟩
  · rw [hlen₂, hX]
  · rw [lookupA_insertA_self, hlen₂, hX]

/-- C2 witness: with snapshots `[S0, S1, S2]` at cursor 2, an undo (to
cursor 1) followed by a snapshot push yields `[S0, S1, S3]` at cursor 2
with count 3, where `S3` is the freshly created snapshot path. -/
theorem C2_snapshot_push_witness :
    (snapshot_image "img.png" "S3"
      (undo_redo "img.png" (-1)
        ⟨[("img.png", ⟨["S0", "S1", "S2"], 2⟩)],
         [("img.png", [9]), ("S0", [0]), ("S1", [1]), ("S2", [2])],
         5, []⟩).2).1 =
      .ok ⟨".harness-gimp-history/img/5__S3.png", 2, 3⟩ ∧
    lookupA (snapshot_image "img.png" "S3"
      (undo_redo "img.png" (-1)
        ⟨[("img.png", ⟨["S0", "S1", "S2"], 2⟩)],
         [("img.png", [9]), ("S0", [0]), ("S1", [1]), ("S2", [2])],
         5, []⟩).2).2.images "img.png" =
      some ⟨["S0", "S1", ".harness-gimp-history/img/5__S3.png"], 2⟩ := by
  have h := C2_snapshot_push
    (undo_redo "img.png" (-1)
      ⟨[("img.png", ⟨["S0", "S1", "S2"], 2⟩)],
       [("img.png", [9]), ("S0", [0]), ("S1", [1]), ("S2", [2])],
       5, []⟩).2 "img.png" "S3" ⟨["S0", "S1", "S2"], 1⟩
    (by decide) (by decide) (by decide)
  exact ⟨h.1.trans (by decide), h.2.trans (by decide)⟩

theorem require_path_eq_ok (p : String) (st : St)
    (h : (lookupA st.files p).isSome) : require_path p st = .ok p := by
  unfold require_path
  rw [if_pos h]

theorem undo_redo_failure_cases (st : St) (img : String) :
    (lookupA st.images img = none →
      undo_redo img (-1) st = (.error .INVALID_INPUT, st) ∧
      undo_redo img 1 st = (.error .INVALID_INPUT, st)) ∧
    (∀ e, lookupA st.images img = some e →
      (e.snapshots = [] →
        undo_redo img (-1) st = (.error .INVALID_INPUT, st) ∧
        undo_redo img 1 st = (.error .INVALID_INPUT, st)) ∧
      (e.index = 0 → undo_redo img (-1) st = (.error .INVALID_INPUT, st)) ∧
      (e.index = (e.snapshots.length : Int) - 1 →
        undo_redo img 1 st = (.error .INVALID_INPUT, st))) := by
  refine ⟨?_, ?_⟩
  · intro hn
    constructor <;> (simp only [undo_redo, hn])
  · intro e he
    refine ⟨?_, ?_, ?_⟩
    · intro hs
      constructor <;> simp only [undo_redo, he, hs, if_true]
    · intro h0
      simp only [undo_redo, he]
      split
      · rfl
      · split
        · rfl
        · exfalso
          omega
    · intro hl
      simp only [undo_redo, he]
      split
      · rfl
      · split
        · rfl
        · exfalso
          omega

/-- C3: `image.undo` fails with `INVALID_INPUT` when the cursor is at
index 0 or the image has no snapshot history (no entry, or an entry with
no snapshots), and `image.redo` fails with `INVALID_INPUT` when the
cursor is at the last index; in each failure case the returned state —
the persisted history document included — is exactly the input state. -/
theorem C3_undo_redo_failures (st : St) (p : Params) (img : String)
    (himg : p.image = some img)
    (hex : (lookupA st.files img).isSome) :
    (lookupA st.images img = none →
      handleUndo p st = (.error .INVALID_INPUT, st) ∧
      handleRedo p st = (.error .INVALID_INPUT, st)) ∧
    (∀ e, lookupA st.images img = some e →
      (e.snapshots = [] →
        handleUndo p st = (.error .INVALID_INPUT, st) ∧
        handleRedo p st = (.error .INVALID_INPUT, st)) ∧
      (e.index = 0 → handleUndo p st = (.error .INVALID_INPUT, st)) ∧
      (e.index = (e.snapshots.length : Int) - 1 →
        handleRedo p st = (.error .INVALID_INPUT, st))) := by
  have hreq : require_path (p.image.getD "") st = .ok img := by
    rw [himg]
    exact require_path_eq_ok img st hex
  have hU : handleUndo p st = undo_redo img (-1) st := by
    unfold handleUndo
    rw [hreq]
  have hR : handleRedo p st = undo_redo img 1 st := by
    unfold handleRedo
    rw [hreq]
  rw [hU, hR]
  exact undo_redo_failure_cases st img

/-- C3 witness: on a concrete document, `image.undo` at cursor 0 fails
with `INVALID_INPUT` leaving the state untouched, `image.redo` at the
last index fails likewise, and `image.undo` on an image with no history
entry fails likewise. -/
theorem C3_undo_redo_failures_witness :
    (handleUndo { image := some "a.png" }
      ⟨[("a.png", ⟨["s0", "s1"], 0⟩)], [("a.png", [1])], 0, []⟩ =
      (.error .INVALID_INPUT,
        ⟨[("a.png", ⟨["s0", "s1"], 0⟩)], [("a.png", [1])], 0, []⟩)) ∧
    (handleRedo { image := some "b.png" }
      ⟨[("b.png", ⟨["t0", "t1"], 1⟩)], [("b.png", [2])], 0, []⟩ =
      (.error .INVALID_INPUT,
        ⟨[("b.png", ⟨["t0", "t1"], 1⟩)], [("b.png", [2])], 0, []⟩)) ∧
    (handleUndo { image := some "c.png" } ⟨[], [("c.png", [3])], 0, []⟩ =
      (.error .INVALID_INPUT, ⟨[], [("c.png", [3])], 0, []⟩)) := by
  refine ⟨?_, ?_, ?_⟩
  · have h := (C3_undo_redo_failures
      ⟨[("a.png", ⟨["s0", "s1"], 0⟩)], [("a.png", [1])], 0, []⟩
      { image := some "a.png" } "a.png" rfl (by decide)).2
      ⟨["s0", "s1"], 0⟩ (by decide)
    exact h.2.1 (by decide)
  · have h := (C3_undo_redo_failures
      ⟨[("b.png", ⟨["t0", "t1"], 1⟩)], [("b.png", [2])], 0, []⟩
      { image := some "b.png" } "b.png" rfl (by decide)).2
      ⟨["t0", "t1"], 1⟩ (by decide)
    exact h.2.2 (by decide)
  · have h := (C3_undo_redo_failures ⟨[], [("c.png", [3])], 0, []⟩
      { image := some "c.png" } "c.png" rfl (by decide)).1 (by decide)
    exact h.1

theorem getD_mem {l : List String} {n : Nat} (h : n < l.length) (d : String) :
    l.getD n d ∈ l := by
  induction l generalizing n with
  | nil => simp at h
  | cons a rest ih =>
    cases n with
    | zero => simp
    | succ m =>
      rw [List.getD_cons_succ]
      exact List.mem_cons_of_mem _ (ih (by simpa using h))

theorem undo_redo_steps_down (img : String) (S : List String) :
    ∀ (k : Nat) (i : Int) (st : St),
    lookupA st.images img = some ⟨S, i⟩ →
    0 ≤ i → (k : Int) ≤ i → i < (S.length : Int) →
    (∀ p ∈ S, (lookupA st.files p).isSome) →
    img ∉ S →
    ∃ st₁, repeatStep img (-1) k st = .ok st₁ ∧
      lookupA st₁.images img = some ⟨S, i - k⟩ ∧
      (∀ q, q ≠ img → lookupA st₁.files q = lookupA st.files q) ∧
      (k = 0 → st₁ = st) ∧
      (0 < k → lookupA st₁.files img
        = lookupA st.files (S.getD (i - k).toNat "")) := by
  intro k
  induction k with
  | zero =>
    intro i st he _ _ _ _ _
    refine ⟨st, rfl, ?_, fun _ _ => rfl, fun _ => rfl, fun h => absurd h (by omega)⟩
    simpa using he
  | succ k ih =>
    intro i st he h0 hk hlt hfiles hni
    have hS : S ≠ [] := by
      intro h
      rw [h] at hlt
      simp at hlt
      omega
    have hguard : ¬(i + (-1 : Int) < 0 ∨ (S.length : Int) ≤ i + -1) := by
      rw [not_or]
      constructor
      · omega
      · omega
    have htn : (i + -1).toNat < S.length := by omega
    have htmem : S.getD (i + -1).toNat "" ∈ S := getD_mem htn ""
    obtain ⟨bytes, hbytes⟩ :=
      Option.isSome_iff_exists.mp (hfiles _ htmem)
    have hundo : undo_redo img (-1) st =
        (.ok ⟨img, S.getD (i + -1).toNat "", i + -1, S.length⟩,
          ⟨insertA st.images img ⟨S, i + -1⟩, insertA st.files img bytes,
           st.clock, st.events⟩) := by
      simp only [undo_redo, he]
      rw [if_neg hS, if_neg hguard, hbytes]
    have hstep : repeatStep img (-1) (k + 1) st =
        repeatStep img (-1) k
          ⟨insertA st.images img ⟨S, i + -1⟩, insertA st.files img bytes,
           st.clock, st.events⟩ := by
      simp only [repeatStep, hundo]
    obtain ⟨st₁, hrun, himg, hfq, hzero, hpos⟩ := ih (i - 1)
      ⟨insertA st.images img ⟨S, i + -1⟩, insertA st.files img bytes,
       st.clock, st.events⟩
      (by
        have : i + (-1 : Int) = i - 1 := by ring
        rw [← this]
        exact lookupA_insertA_self _ _ _)
      (by omega) (by omega) (by omega)
      (by
        intro p hp
        have hpq : img ≠ p := fun h => hni (h ▸ hp)
        rw [lookupA_insertA_ne _ _ hpq]
        exact hfiles p hp)
      hni
    refine ⟨st₁, hstep ▸ hrun, ?_, ?_, ?_, ?_⟩
    · have harith : i - 1 - (k : Int) = i - ((k + 1 : Nat) : Int) := by
        push_cast
        ring
      rw [← harith]
      exact himg
    · intro q hq
      rw [hfq q hq, lookupA_insertA_ne _ _ (Ne.symm hq)]
    · intro h
      exact absurd h (by omega)
    · intro _
      have harith : i - ((k + 1 : Nat) : Int) = i - 1 - (k : Int) := by
        push_cast
        ring
      rcases Nat.eq_zero_or_pos k with hk0 | hkpos
      · subst hk0
        rw [hzero rfl]
        have harith₂ : i - ((0 + 1 : Nat) : Int) = i + -1 := by
          push_cast
          ring
        rw [harith₂, lookupA_insertA_self]
        exact hbytes.symm
      · rw [hpos hkpos, harith]
        have hmem₂ : S.getD (i - 1 - (k : Int)).toNat "" ∈ S := by
          apply getD_mem _ ""
          omega
        have hq : img ≠ S.getD (i - 1 - (k : Int)).toNat "" :=
          fun h => hni (h ▸ hmem₂)
        rw [lookupA_insertA_ne _ _ hq]

theorem undo_redo_steps_up (img : String) (S : List String) :
    ∀ (k : Nat) (i : Int) (st : St),
    lookupA st.images img = some ⟨S, i⟩ →
    0 ≤ i → i + k < (S.length : Int) →
    (∀ p ∈ S, (lookupA st.files p).isSome) →
    img ∉ S →
    ∃ st₁, repeatStep img 1 k st = .ok st₁ ∧
      lookupA st₁.images img = some ⟨S, i + k⟩ ∧
      (∀ q, q ≠ img → lookupA st₁.files q = lookupA st.files q) ∧
      (k = 0 → st₁ = st) ∧
      (0 < k → lookupA st₁.files img
        = lookupA st.files (S.getD (i + k).toNat "")) := by
  intro k
  induction k with
  | zero =>
    intro i st he _ _ _ _
    refine ⟨st, rfl, ?_, fun _ _ => rfl, fun _ => rfl, fun h => absurd h (by omega)⟩
    simpa using he
  | succ k ih =>
    intro i st he h0 hk hfiles hni
    have hS : S ≠ [] := by
      intro h
      rw [h] at hk
      simp at hk
      omega
    have hguard : ¬(i + (1 : Int) < 0 ∨ (S.length : Int) ≤ i + 1) := by
      rw [not_or]
      constructor
      · omega
      · omega
    have htn : (i + 1).toNat < S.length := by omega
    have htmem : S.getD (i + 1).toNat "" ∈ S := getD_mem htn ""
    obtain ⟨bytes, hbytes⟩ :=
      Option.isSome_iff_exists.mp (hfiles _ htmem)
    have hredo : undo_redo img 1 st =
        (.ok ⟨img, S.getD (i + 1).toNat "", i + 1, S.length⟩,
          ⟨insertA st.images img ⟨S, i + 1⟩, insertA st.files img bytes,
           st.clock, st.events⟩) := by
      simp only [undo_redo, he]
      rw [if_neg hS, if_neg hguard, hbytes]
    have hstep : repeatStep img 1 (k + 1) st =
        repeatStep img 1 k
          ⟨insertA st.images img ⟨S, i + 1⟩, insertA st.files img bytes,
           st.clock, st.events⟩ := by
      simp only [repeatStep, hredo]
    obtain ⟨st₁, hrun, himg, hfq, hzero, hpos⟩ := ih (i + 1)
      ⟨insertA st.images img ⟨S, i + 1⟩, insertA st.files img bytes,
       st.clock, st.events⟩
      (lookupA_insertA_self _ _ _)
      (by omega) (by push_cast at hk ⊢; omega)
      (by
        intro p hp
        have hpq : img ≠ p := fun h => hni (h ▸ hp)
        rw [lookupA_insertA_ne _ _ hpq]
        exact hfiles p hp)
      hni
    refine ⟨st₁, hstep ▸ hrun, ?_, ?_, ?_, ?_⟩
    · have harith : i + 1 + (k : Int) = i + ((k + 1 : Nat) : Int) := by
        push_cast
        ring
      rw [← harith]
      exact himg
    · intro q hq
      rw [hfq q hq, lookupA_insertA_ne _ _ (Ne.symm hq)]
    · intro h
      exact absurd h (by omega)
    · intro _
      have harith : i + ((k + 1 : Nat) : Int) = i + 1 + (k : Int) := by
        push_cast
        ring
      rcases Nat.eq_zero_or_pos k with hk0 | hkpos
      · subst hk0
        rw [hzero rfl]
        have harith₂ : i + ((0 + 1 : Nat) : Int) = i + 1 := by
          push_cast
          ring
        rw [harith₂, lookupA_insertA_self]
        exact hbytes.symm
      · rw [hpos hkpos, harith]
        have hmem₂ : S.getD (i + 1 + (k : Int)).toNat "" ∈ S := by
          apply getD_mem _ ""
          push_cast at hk
          omega
        have hq : img ≠ S.getD (i + 1 + (k : Int)).toNat "" :=
          fun h => hni (h ▸ hmem₂)
        rw [lookupA_insertA_ne _ _ hq]

/-- C7: for an image whose history has `N ≥ 2` snapshots with cursor at
`N - 1`, whose snapshot files all exist and are distinct from the live
image path, undoing `N - 1` times and then redoing `N - 1` times
succeeds, restores the cursor to `N - 1`, and leaves the live file's
bytes equal to the bytes of the final (index `N - 1`) snapshot. -/
theorem C7_undo_redo_round_trip (st : St) (img : String) (S : List String)
    (N : Nat) (hN : 2 ≤ N) (hlen : S.length = N)
    (he : lookupA st.images img = some ⟨S, (N : Int) - 1⟩)
    (hfiles : ∀ p ∈ S, (lookupA st.files p).isSome)
    (hni : img ∉ S) :
    ∃ st₁ st₂, repeatStep img (-1) (N - 1) st = .ok st₁ ∧
      repeatStep img 1 (N - 1) st₁ = .ok st₂ ∧
      lookupA st₂.images img = some ⟨S, (N : Int) - 1⟩ ∧
      lookupA st₂.files img = lookupA st.files (S.getD (N - 1) "") := by
  obtain ⟨st₁, hrun₁, himg₁, hfq₁, _, _⟩ :=
    undo_redo_steps_down img S (N - 1) ((N : Int) - 1) st he
      (by omega) (by omega) (by omega) hfiles hni
  have hidx₁ : ((N : Int) - 1) - ((N - 1 : Nat) : Int) = 0 := by
    omega
  rw [hidx₁] at himg₁
  obtain ⟨st₂, hrun₂, himg₂, hfq₂, _, hbytes₂⟩ :=
    undo_redo_steps_up img S (N - 1) 0 st₁ himg₁
      le_rfl (by omega)
      (by
        intro p hp
        rw [hfq₁ p (fun h => hni (h ▸ hp))]
        exact hfiles p hp)
      hni
  have hidx₂ : (0 : Int) + ((N - 1 : Nat) : Int) = (N : Int) - 1 := by
    omega
  rw [hidx₂] at himg₂
  refine ⟨st₁, st₂, hrun₁, hrun₂, himg₂, ?_⟩
  have hlast : ((0 : Int) + ((N - 1 : Nat) : Int)).toNat = N - 1 := by
    omega
  have hfin := hbytes₂ (by omega)
  rw [hlast] at hfin
  rw [hfin]
  exact hfq₁ _ (fun h => hni (h ▸ getD_mem (by omega) ""))

/-- C7 witness: with snapshots `[s0, s1, s2]` (all present on disk) and
cursor 2, two undos followed by two redos succeed, restore the cursor to
2, and leave the live file's bytes equal to snapshot `s2`'s bytes. -/
theorem C7_undo_redo_round_trip_witness :
    ∃ st₁ st₂,
      repeatStep "img.png" (-1) 2
        ⟨[("img.png", ⟨["s0", "s1", "s2"], 2⟩)],
         [("img.png", [9]), ("s0", [0]), ("s1", [1]), ("s2", [2])],
         0, []⟩ = .ok st₁ ∧
      repeatStep "img.png" 1 2 st₁ = .ok st₂ ∧
      lookupA st₂.images "img.png" = some ⟨["s0", "s1", "s2"], 2⟩ ∧
      lookupA st₂.files "img.png" =
        lookupA
          (⟨[("img.png", ⟨["s0", "s1", "s2"], 2⟩)],
            [("img.png", [9]), ("s0", [0]), ("s1", [1]), ("s2", [2])],
            0, []⟩ : St).files (["s0", "s1", "s2"].getD 2 "") :=
  C7_undo_redo_round_trip
    ⟨[("img.png", ⟨["s0", "s1", "s2"], 2⟩)],
     [("img.png", [9]), ("s0", [0]), ("s1", [1]), ("s2", [2])],
     0, []⟩ "img.png" ["s0", "s1", "s2"] 3 (by decide) (by decide)
    (by decide) (by decide) (by decide)

/-- C9: curve-point normalization for `adjust.curves` — a point is
accepted as an `{x,y}` mapping or as a 2-element pair (both extract the
same coordinates); a point with either coordinate above `1.0` has both
coordinates divided by 255 and then clamped to `[0,1]`; a point with
both coordinates already in `[0,1]` is passed through unchanged (never
rescaled); the resulting point list is sorted by x; and the final white
level equals the 0–255 rounding of the last x, forced to
`min(255, black + 1)` whenever that rounding is at most black. -/
theorem C9_curves_points (pts : List RawPoint) (out : CurvesOut)
    (hok : curvesNormalize pts = .ok out) :
    (∀ x y : ℚ, 0 ≤ x → x ≤ 1 → 0 ≤ y → y ≤ 1 →
      normalizeOne (x, y) = (x, y)) ∧
    (∀ x y : ℚ, 1 < x ∨ 1 < y →
      normalizeOne (x, y) = (clamp01 (x / 255), clamp01 (y / 255))) ∧
    (∀ x y : ℚ, rawXY (.obj (some x) (some y)) = rawXY (.pair x y)) ∧
    out.points.Sorted leX ∧
    out.black = max 0 (min 255 (pyRound ((out.points.headD (0, 0)).1 * 255))) ∧
    out.white =
      (if max 1 (min 255 (pyRound ((out.points.getLastD (0, 0)).1 * 255)))
          ≤ out.black
       then min 255 (out.black + 1)
       else max 1 (min 255 (pyRound ((out.points.getLastD (0, 0)).1 * 255)))) := by
  have hone : ∀ x y : ℚ, 0 ≤ x → x ≤ 1 → 0 ≤ y → y ≤ 1 →
      normalizeOne (x, y) = (x, y) := by
    intro x y h0x hx1 h0y hy1
    unfold normalizeOne
    rw [if_neg (by push_neg; exact ⟨hx1, hy1⟩)]
    unfold clamp01
    dsimp only
    rw [min_eq_right hx1, max_eq_right h0x, min_eq_right hy1, max_eq_right h0y]
  have hscale : ∀ x y : ℚ, 1 < x ∨ 1 < y →
      normalizeOne (x, y) = (clamp01 (x / 255), clamp01 (y / 255)) := by
    intro x y h
    unfold normalizeOne
    rw [if_pos h]
  refine ⟨hone, hscale, fun x y => rfl, ?_⟩
  unfold curvesNormalize at hok
  split at hok
  · exact absurd hok (by simp)
  · cases hmap : mapPoints pts with
    | error e =>
      rw [hmap] at hok
      exact absurd hok (by simp)
    | ok xys =>
      rw [hmap] at hok
      simp only [Except.ok.injEq] at hok
      subst hok
      exact ⟨List.sorted_insertionSort leX _, rfl, rfl⟩

/-- Evaluation of the curve pipeline on the regression input
`[[0,0],[255,255]]`: the first pair is within `[0,1]` and stays
unscaled, the second is rescaled to `(1,1)`, black is 0, white 255. -/
theorem curvesRegressionEval :
    curvesNormalize [.pair 0 0, .pair 255 255] =
      .ok ⟨[(0, 0), (1, 1)], 0, 255⟩ := by
  have h1 : normalizeOne ((0 : ℚ), (0 : ℚ)) = (0, 0) := by
    norm_num [normalizeOne, clamp01]
  have h2 : normalizeOne ((255 : ℚ), (255 : ℚ)) = (1, 1) := by
    norm_num [normalizeOne, clamp01]
  have hmap : mapPoints [.pair 0 0, .pair 255 255] =
      .ok [((0 : ℚ), (0 : ℚ)), ((255 : ℚ), (255 : ℚ))] := by
    simp [mapPoints, rawXY]
  have hsort : List.insertionSort leX [((0 : ℚ), (0 : ℚ)), ((1 : ℚ), (1 : ℚ))]
      = [(0, 0), (1, 1)] := by
    norm_num [List.insertionSort, List.orderedInsert, leX]
  have hr0 : pyRound (0 : ℚ) = 0 := by
    norm_num [pyRound]
  have hr1 : pyRound (255 : ℚ) = 255 := by
    norm_num [pyRound]
  unfold curvesNormalize
  rw [if_neg (by simp), hmap]
  simp only [List.map_cons, List.map_nil, h1, h2, hsort]
  norm_num [hr0, hr1]

/-- C9 witness: on the regression input `[[0,0],[255,255]]`, the
normalized output is `[(0,0),(1,1)]` with black 0 and white 255; the
in-range pair `(0,0)` is unchanged, the out-of-range pair `(255,255)`
is rescaled to `(1,1)`, mapping and pair forms agree, the output is
sorted, and black/white follow the rounding rule. -/
theorem C9_curves_points_witness :
    curvesNormalize [.pair 0 0, .pair 255 255] =
      .ok ⟨[(0, 0), (1, 1)], 0, 255⟩ ∧
    normalizeOne ((0 : ℚ), (0 : ℚ)) = (0, 0) ∧
    normalizeOne ((255 : ℚ), (255 : ℚ)) =
      (clamp01 ((255 : ℚ) / 255), clamp01 ((255 : ℚ) / 255)) ∧
    rawXY (.obj (some 0) (some 0)) = rawXY (.pair 0 0) ∧
    List.Sorted leX [((0 : ℚ), (0 : ℚ)), ((1 : ℚ), (1 : ℚ))] := by
  have h := C9_curves_points [.pair 0 0, .pair 255 255]
    ⟨[(0, 0), (1, 1)], 0, 255⟩ curvesRegressionEval
  exact ⟨curvesRegressionEval,
    h.1 0 0 le_rfl (by norm_num) le_rfl (by norm_num),
    h.2.1 255 255 (by norm_num),
    h.2.2.1 0 0,
    h.2.2.2.1⟩

theorem snapshotPath_data (image description : String) (t : Nat) :
    (snapshotPath image description t).data =
      HISTORY_ROOT.data ++ "/".data ++ (safe_name (pathStem image)).data
        ++ "/".data ++ (stampText t).data ++ "__".data
        ++ (safe_name description).data
        ++ (lowerTxt (pathSuffix image)).data := by
  simp [snapshotPath, String.data_append]

theorem snapshotPath_head (image description : String) (t : Nat) :
    (snapshotPath image description t).data.head? = some '.' := by
  rw [snapshotPath_data]
  rfl

theorem ne_snapshotPath {img : String} (h : img.data.head? ≠ some '.')
    (i d : String) (t : Nat) : img ≠ snapshotPath i d t := by
  intro heq
  apply h
  rw [heq]
  exact snapshotPath_head i d t

theorem snapshot_image_eq (image d : String) (st : St) (b : Bytes)
    (hb : lookupA st.files image = some b) :
    snapshot_image image d st =
      (.ok ⟨snapshotPath image d st.clock,
        ((pyTake ((lookupA st.images image).getD ⟨[], -1⟩).snapshots
            (((lookupA st.images image).getD ⟨[], -1⟩).index + 1)
          ++ [snapshotPath image d st.clock]).length : Int) - 1,
        (pyTake ((lookupA st.images image).getD ⟨[], -1⟩).snapshots
            (((lookupA st.images image).getD ⟨[], -1⟩).index + 1)
          ++ [snapshotPath image d st.clock]).length⟩,
       ⟨insertA st.images image
          ⟨pyTake ((lookupA st.images image).getD ⟨[], -1⟩).snapshots
              (((lookupA st.images image).getD ⟨[], -1⟩).index + 1)
            ++ [snapshotPath image d st.clock],
           ((pyTake ((lookupA st.images image).getD ⟨[], -1⟩).snapshots
              (((lookupA st.images image).getD ⟨[], -1⟩).index + 1)
            ++ [snapshotPath image d st.clock]).length : Int) - 1⟩,
        insertA st.files (snapshotPath image d st.clock) b,
        st.clock + 1,
        st.events ++ [.snap image d]⟩) := by
  simp only [snapshot_image, hb]

theorem maybe_auto_snapshot_skip (image : String) (output : Option String)
    (label : String) (st : St)
    (hdiff : outputOrInput output image ≠ image) :
    maybe_auto_snapshot image output label st = (.ok (), st) := by
  unfold maybe_auto_snapshot
  rw [if_neg hdiff]

theorem maybe_auto_snapshot_inplace (image : String) (output : Option String)
    (label : String) (st : St) (b : Bytes)
    (hb : lookupA st.files image = some b)
    (hsame : outputOrInput output image = image) :
    maybe_auto_snapshot image output label st =
      (.ok (), (snapshot_image image ("auto-before-" ++ label) st).2) := by
  unfold maybe_auto_snapshot
  rw [if_pos hsame]
  rw [snapshot_image_eq image ("auto-before-" ++ label) st b hb]

theorem maybe_auto_snapshot_keeps (image : String) (output : Option String)
    (label : String) (st : St) (b : Bytes)
    (hb : lookupA st.files image = some b)
    (hhead : image.data.head? ≠ some '.') :
    ∃ st₁, maybe_auto_snapshot image output label st = (.ok (), st₁) ∧
      lookupA st₁.files image = some b := by
  by_cases hsame : outputOrInput output image = image
  · refine ⟨_, maybe_auto_snapshot_inplace image output label st b hb hsame, ?_⟩
    rw [snapshot_image_eq image ("auto-before-" ++ label) st b hb]
    exact (lookupA_insertA_ne _ _
      (Ne.symm (ne_snapshotPath hhead _ _ _))).trans hb
  · exact ⟨st, maybe_auto_snapshot_skip image output label st hsame, hb⟩

theorem run_action_inspect (ed : Editor) (p : Payload) (st : St) (b : Bytes)
    (hb : lookupA st.files p.image = some b) :
    run_action ed "inspect" p st =
      (.ok (.inspected (ed.dims b).1 (ed.dims b).2),
       ⟨st.images, st.files, st.clock, st.events ++ [.invoke "inspect"]⟩) := by
  unfold run_action
  dsimp only
  rw [hb]
  dsimp only
  rw [if_pos rfl]

theorem run_action_edit_inplace (ed : Editor) (action : String) (p : Payload)
    (st : St) (b : Bytes)
    (hb : lookupA st.files p.image = some b)
    (hact : ¬(action = "inspect"))
    (hmut : action ∈ mutatingActions)
    (hout : outputOrInput p.output p.image = p.image) :
    run_action ed action p st =
      (.ok (.did p),
       (snapshot_image p.image ("auto-after-" ++ action)
         ⟨st.images, insertA st.files p.image (ed.edit action b),
          st.clock, st.events ++ [.invoke action]⟩).2) := by
  have hb₂ : lookupA (insertA st.files p.image (ed.edit action b)) p.image
      = some (ed.edit action b) := lookupA_insertA_self _ _ _
  unfold run_action
  dsimp only
  rw [hb]
  dsimp only
  rw [if_neg hact, hout]
  rw [if_pos ⟨hmut, rfl, by rw [hb₂]; rfl⟩]
  rw [snapshot_image_eq _ _ _ _ hb₂]

theorem run_action_edit_outplace (ed : Editor) (action : String) (p : Payload)
    (st : St) (b : Bytes)
    (hb : lookupA st.files p.image = some b)
    (hact : ¬(action = "inspect"))
    (hdiff : outputOrInput p.output p.image ≠ p.image) :
    run_action ed action p st =
      (.ok (.did p),
       ⟨st.images,
        insertA st.files (outputOrInput p.output p.image) (ed.edit action b),
        st.clock, st.events ++ [.invoke action]⟩) := by
  unfold run_action
  dsimp only
  rw [hb]
  dsimp only
  rw [if_neg hact]
  rw [if_neg (fun hc => hdiff hc.2.1)]

theorem outputOrInput_ne_empty (output : Option String) (image : String)
    (h : outputOrInput output image ≠ image) : outputOrInput output image ≠ "" := by
  unfold outputOrInput at *
  cases output with
  | none => exact absurd rfl h
  | some o =>
    dsimp only at h ⊢
    by_cases ho : o = ""
    · rw [if_pos ho] at h
      exact absurd rfl h
    · rw [if_neg ho] at h ⊢
      exact ho

/-- A demonstration editor oracle: editing prepends a byte, inspecting
reports 1000×800. -/
def edDemo : Editor :=
  ⟨fun _ bytes => 0 :: bytes, fun _ => (1000, 800)⟩

/-- C8: `image.crop_center` validates `width`/`height > 0`, obtains the
source dimensions from a live `inspect` invocation of the editor, fails
with `INVALID_INPUT` when the requested width or height exceeds the
source dimensions (the inspect subprocess having already run), and
otherwise dispatches `crop` with the centered offsets
`x = (srcW - width) // 2` and `y = (srcH - height) // 2`. -/
theorem C8_crop_center (ed : Editor) (st : St) (p : Params) (img : String)
    (b : Bytes) (srcW srcH w h : Int)
    (himg : p.image = some img)
    (hb : lookupA st.files img = some b)
    (hdims : ed.dims b = (srcW, srcH))
    (hw : p.width = some w) (hh : p.height = some h)
    (hw0 : 0 < w) (hh0 : 0 < h)
    (hhead : img.data.head? ≠ some '.') :
    ((srcW < w ∨ srcH < h) →
      (handleCropCenter ed p st).1 = .error .INVALID_INPUT ∧
      Event.invoke "inspect" ∈ (handleCropCenter ed p st).2.events) ∧
    (w ≤ srcW → h ≤ srcH →
      (handleCropCenter ed p st).1 = .ok (.did
        { image := img, width := some w, height := some h
          x := some (Int.fdiv (srcW - w) 2), y := some (Int.fdiv (srcH - h) 2)
          output := some (outputOrInput p.output img) })) := by
  obtain ⟨st₁, hmas, hb₁⟩ :=
    maybe_auto_snapshot_keeps img p.output "crop-center" st b hb hhead
  have hreq : require_path (p.image.getD "") st = .ok img := by
    rw [himg]
    exact require_path_eq_ok img st (by rw [hb]; rfl)
  have heval : handleCropCenter ed p st =
      (if srcW < w ∨ srcH < h
       then (.error .INVALID_INPUT,
         ⟨st₁.images, st₁.files, st₁.clock, st₁.events ++ [.invoke "inspect"]⟩)
       else run_action ed "crop"
         { image := img, width := some w, height := some h
           x := some (Int.fdiv (srcW - w) 2), y := some (Int.fdiv (srcH - h) 2)
           output := some (outputOrInput p.output img) }
         ⟨st₁.images, st₁.files, st₁.clock,
          st₁.events ++ [.invoke "inspect"]⟩) := by
    unfold handleCropCenter
    rw [hreq]
    dsimp only
    rw [hmas]
    dsimp only
    rw [hw, hh]
    simp only [Option.getD_some]
    rw [if_neg (by omega : ¬(w ≤ 0 ∨ h ≤ 0))]
    rw [run_action_inspect ed _ _ b hb₁]
    dsimp only
    rw [hdims]
  constructor
  · intro hc
    rw [heval, if_pos hc]
    exact ⟨rfl, by simp⟩
  · intro hcw hch
    rw [heval, if_neg (by omega : ¬(srcW < w ∨ srcH < h))]
    by_cases hsame : outputOrInput p.output img = img
    · have hout : outputOrInput (some (outputOrInput p.output img)) img
          = img := by
        rw [hsame]
        simp [outputOrInput]
      rw [run_action_edit_inplace ed "crop" _ _ b (by exact hb₁)
        (by decide) (by decide) hout]
    · have hne : outputOrInput p.output img ≠ "" :=
        outputOrInput_ne_empty p.output img hsame
      have hout : outputOrInput (some (outputOrInput p.output img)) img
          = outputOrInput p.output img := by
        show (if outputOrInput p.output img = "" then img
              else outputOrInput p.output img) = outputOrInput p.output img
        rw [if_neg hne]
      rw [run_action_edit_outplace ed "crop" _ _ b (by exact hb₁)
        (by decide) (by rw [hout]; exact hsame)]

/-- C8 witness: with a 1000×800 source and a 400×200 request written to
a distinct output, the dispatched crop offsets are `x = 300`, `y = 300`;
with an oversized 1200-wide request the call fails with `INVALID_INPUT`
after the live inspect ran. -/
theorem C8_crop_center_witness :
    (handleCropCenter edDemo
      { image := some "photo.png", width := some 400, height := some 200
        output := some "out.png" }
      ⟨[], [("photo.png", [1])], 0, []⟩).1 =
      .ok (.did { image := "photo.png", width := some 400, height := some 200
                  x := some 300, y := some 300, output := some "out.png" }) ∧
    (handleCropCenter edDemo
      { image := some "photo.png", width := some 1200, height := some 200
        output := some "out.png" }
      ⟨[], [("photo.png", [1])], 0, []⟩).1 = .error .INVALID_INPUT := by
  constructor
  · have h := (C8_crop_center edDemo ⟨[], [("photo.png", [1])], 0, []⟩
      { image := some "photo.png", width := some 400, height := some 200
        output := some "out.png" }
      "photo.png" [1] 1000 800 400 200 rfl (by decide) rfl rfl rfl
      (by decide) (by decide) (by decide)).2 (by decide) (by decide)
    exact h.trans (by decide)
  · have h := (C8_crop_center edDemo ⟨[], [("photo.png", [1])], 0, []⟩
      { image := some "photo.png", width := some 1200, height := some 200
        output := some "out.png" }
      "photo.png" [1] 1000 800 1200 200 rfl (by decide) rfl rfl rfl
      (by decide) (by decide) (by decide)).1 (by decide)
    exact h.1

theorem ne_of_getElem?_append {a b x y : List Char} {n : Nat}
    (hne : a[n]? ≠ b[n]?) (hna : n < a.length) (hnb : n < b.length) :
    a ++ x ≠ b ++ y := by
  intro h
  apply hne
  have h₁ : (a ++ x)[n]? = a[n]? := List.getElem?_append_left hna
  have h₂ : (b ++ y)[n]? = b[n]? := List.getElem?_append_left hnb
  rw [← h₁, ← h₂, h]

theorem snapshotPath_ne (image d₁ d₂ : String) (t₁ t₂ : Nat) (n : Nat)
    (h₁ : n < (safe_name d₁).data.length)
    (h₂ : n < (safe_name d₂).data.length)
    (hne : (safe_name d₁).data.reverse[n]? ≠ (safe_name d₂).data.reverse[n]?) :
    snapshotPath image d₁ t₁ ≠ snapshotPath image d₂ t₂ := by
  intro heq
  have hd : (snapshotPath image d₁ t₁).data.reverse
      = (snapshotPath image d₂ t₂).data.reverse := by
    rw [heq]
  rw [snapshotPath_data, snapshotPath_data] at hd
  simp only [List.reverse_append, List.append_assoc] at hd
  have hd₂ := List.append_cancel_left hd
  exact ne_of_getElem?_append hne (by simpa using h₁) (by simpa using h₂) hd₂

/-- C6 counterexample: `layer.opacity` called with `layerId = 0` does
not behave like `layerIndex = 0` — the `layerId` key is ignored and the
dispatched payload carries the default layer index `-1`, so the two
calls produce different results. -/
theorem C6_layer_alias_counterexample :
    (handleLayerOpacity edDemo
      { image := some "i.png", opacity := some 50, layerId := some 0 }
      ⟨[], [("i.png", [1])], 0, []⟩).1 ≠
    (handleLayerOpacity edDemo
      { image := some "i.png", opacity := some 50, layerIndex := some 0 }
      ⟨[], [("i.png", [1])], 0, []⟩).1 := by
  decide

/-- C6 amended: the `layerId`/`layerIndex` aliases are interchangeable
exactly for the methods that resolve the layer reference through
`_layer_index` (`mask.add`, `mask.apply`, `text.update` — modelled here
by `mask.apply`); the other layer-referencing methods (modelled by
`layer.opacity`) read only `layerIndex` and ignore `layerId` entirely. -/
theorem C6_layer_alias_amended :
    (∀ (ed : Editor) (st : St) (p : Params) (k : Int),
      handleMaskApply ed { p with layerIndex := some k, layerId := none } st =
      handleMaskApply ed { p with layerIndex := none, layerId := some k } st) ∧
    (∀ (ed : Editor) (st : St) (p : Params),
      handleLayerOpacity ed p st =
      handleLayerOpacity ed { p with layerId := none } st) :=
  ⟨fun _ _ _ _ => rfl, fun _ _ _ => rfl⟩

/-- C5 counterexample: `adjust.brightness_contrast` edits in place —
the action `brightness_contrast` is in the mutating set, the resolved
output equals the input and the call succeeds — yet no snapshot tagged
`auto-before-brightness_contrast` (`auto-before-` followed by the
action name) is ever created: the before-snapshot is tagged with the
hyphenated label `brightness-contrast` instead. -/
theorem C5_before_tag_counterexample :
    ("brightness_contrast" ∈ mutatingActions) ∧
    (handleBrightnessContrast edDemo
      { image := some "i.png", brightness := some 5, contrast := some 5 }
      ⟨[], [("i.png", [1])], 0, []⟩).1 =
      .ok (.did { image := "i.png", output := some "i.png",
                  layerIndex := some 0, brightness := some 5,
                  contrast := some 5 }) ∧
    (∀ e ∈ (handleBrightnessContrast edDemo
      { image := some "i.png", brightness := some 5, contrast := some 5 }
      ⟨[], [("i.png", [1])], 0, []⟩).2.events,
      e ≠ Event.snap "i.png" "auto-before-brightness_contrast") ∧
    Event.snap "i.png" "auto-before-brightness-contrast" ∈
      (handleBrightnessContrast edDemo
        { image := some "i.png", brightness := some 5, contrast := some 5 }
        ⟨[], [("i.png", [1])], 0, []⟩).2.events := by
  refine ⟨by decide, by decide, by decide, by decide⟩

/-- C5 amended: for an in-place `adjust.brightness_contrast` call the
registry creates a snapshot tagged `auto-before-<label>` with the
handler's hyphenated label (`brightness-contrast`, not the action name)
before the editor is invoked, and the dispatcher creates an
`auto-after-<action>` snapshot after it; when the resolved output
differs from the input, no snapshot is created at all. -/
theorem C5_before_snapshot_amended (ed : Editor) (st : St) (p : Params)
    (img : String) (b : Bytes)
    (himg : p.image = some img)
    (hb : lookupA st.files img = some b)
    (hhead : img.data.head? ≠ some '.') :
    (outputOrInput p.output img = img →
      (handleBrightnessContrast ed p st).1 = .ok (.did
        { image := img, output := some img,
          layerIndex := some (p.layerIndex.getD 0),
          brightness := some (p.brightness.getD 0),
          contrast := some (p.contrast.getD 0) }) ∧
      (handleBrightnessContrast ed p st).2.events =
        st.events ++ [.snap img "auto-before-brightness-contrast",
          .invoke "brightness_contrast",
          .snap img "auto-after-brightness_contrast"]) ∧
    (outputOrInput p.output img ≠ img →
      (handleBrightnessContrast ed p st).1 = .ok (.did
        { image := img, output := some (outputOrInput p.output img),
          layerIndex := some (p.layerIndex.getD 0),
          brightness := some (p.brightness.getD 0),
          contrast := some (p.contrast.getD 0) }) ∧
      (handleBrightnessContrast ed p st).2.events =
        st.events ++ [.invoke "brightness_contrast"]) := by
  have hreq : require_path (p.image.getD "") st = .ok img := by
    rw [himg]
    exact require_path_eq_ok img st (by rw [hb]; rfl)
  constructor
  · intro hsame
    have hb₁ : lookupA (snapshot_image img
        ("auto-before-" ++ "brightness-contrast") st).2.files img = some b := by
      rw [snapshot_image_eq img ("auto-before-" ++ "brightness-contrast") st b hb]
      exact (lookupA_insertA_ne _ _
        (Ne.symm (ne_snapshotPath hhead _ _ _))).trans hb
    have heval : handleBrightnessContrast ed p st =
        (.ok (.did
          { image := img, output := some img,
            layerIndex := some (p.layerIndex.getD 0),
            brightness := some (p.brightness.getD 0),
            contrast := some (p.contrast.getD 0) }),
         (snapshot_image img ("auto-after-" ++ "brightness_contrast")
           ⟨(snapshot_image img ("auto-before-" ++ "brightness-contrast") st).2.images,
            insertA (snapshot_image img
              ("auto-before-" ++ "brightness-contrast") st).2.files img
              (ed.edit "brightness_contrast" b),
            (snapshot_image img ("auto-before-" ++ "brightness-contrast") st).2.clock,
            (snapshot_image img ("auto-before-" ++ "brightness-contrast") st).2.events
              ++ [.invoke "brightness_contrast"]⟩).2) := by
      unfold handleBrightnessContrast
      rw [hreq]
      dsimp only
      rw [maybe_auto_snapshot_inplace img p.output "brightness-contrast" st b hb hsame]
      dsimp only
      rw [hsame]
      rw [run_action_edit_inplace ed "brightness_contrast" _ _ b hb₁
        (by decide) (by decide) (by simp [outputOrInput])]
    rw [heval]
    refine ⟨rfl, ?_⟩
    have hb₂ : lookupA (insertA (snapshot_image img
        ("auto-before-" ++ "brightness-contrast") st).2.files img
        (ed.edit "brightness_contrast" b)) img
        = some (ed.edit "brightness_contrast" b) := lookupA_insertA_self _ _ _
    rw [snapshot_image_eq img ("auto-after-" ++ "brightness_contrast") _ _ hb₂]
    dsimp only
    rw [snapshot_image_eq img ("auto-before-" ++ "brightness-contrast") st b hb]
    dsimp only
    simp
  · intro hdiff
    have hne : outputOrInput p.output img ≠ "" :=
      outputOrInput_ne_empty p.output img hdiff
    have hout : outputOrInput (some (outputOrInput p.output img)) img
        = outputOrInput p.output img := by
      show (if outputOrInput p.output img = "" then img
            else outputOrInput p.output img) = outputOrInput p.output img
      rw [if_neg hne]
    have heval : handleBrightnessContrast ed p st =
        (.ok (.did
          { image := img,
            output := some (outputOrInput p.output img),
            layerIndex := some (p.layerIndex.getD 0),
            brightness := some (p.brightness.getD 0),
            contrast := some (p.contrast.getD 0) }),
         ⟨st.images,
          insertA st.files (outputOrInput p.output img)
            (ed.edit "brightness_contrast" b),
          st.clock, st.events ++ [.invoke "brightness_contrast"]⟩) := by
      unfold handleBrightnessContrast
      rw [hreq]
      dsimp only
      rw [maybe_auto_snapshot_skip img p.output "brightness-contrast" st hdiff]
      dsimp only
      rw [run_action_edit_outplace ed "brightness_contrast" _ _ b hb
        (by decide) (by rw [hout]; exact hdiff)]
      rw [hout]
    rw [heval]
    exact ⟨rfl, rfl⟩

/-- C5 witness: a concrete in-place `adjust.brightness_contrast` call
produces exactly the event sequence before-snapshot (hyphenated label),
editor invocation, after-snapshot (action name); a call writing to a
distinct output produces only the invocation. -/
theorem C5_before_snapshot_amended_witness :
    (handleBrightnessContrast edDemo
      { image := some "j.png", brightness := some 3, contrast := some 4 }
      ⟨[], [("j.png", [1])], 0, []⟩).2.events =
      [.snap "j.png" "auto-before-brightness-contrast",
       .invoke "brightness_contrast",
       .snap "j.png" "auto-after-brightness_contrast"] ∧
    (handleBrightnessContrast edDemo
      { image := some "j.png", output := some "k.png"
        brightness := some 3, contrast := some 4 }
      ⟨[], [("j.png", [1])], 0, []⟩).2.events =
      [.invoke "brightness_contrast"] := by
  constructor
  · have h := (C5_before_snapshot_amended edDemo ⟨[], [("j.png", [1])], 0, []⟩
      { image := some "j.png", brightness := some 3, contrast := some 4 }
      "j.png" [1] rfl (by decide) (by decide)).1 (by decide)
    exact h.2.trans (by decide)
  · have h := (C5_before_snapshot_amended edDemo ⟨[], [("j.png", [1])], 0, []⟩
      { image := some "j.png", output := some "k.png"
        brightness := some 3, contrast := some 4 }
      "j.png" [1] rfl (by decide) (by decide)).2 (by decide)
    exact h.2.trans (by decide)

theorem require_path_eq_err (p : String) (st : St)
    (h : lookupA st.files p = none) : require_path p st = .error .NOT_FOUND := by
  unfold require_path
  rw [h]
  rfl

/-- C4 counterexample: `image.resize` on an existing image with an
in-place output and an invalid `width = 0` fails with `INVALID_INPUT`,
yet the history document has been mutated: the auto-before snapshot was
pushed before the parameter validation ran. -/
theorem C4_failed_validation_counterexample :
    (handleResize edDemo
      { image := some "pic.png", width := some 0, height := some 10 }
      ⟨[], [("pic.png", [1])], 0, []⟩).1 = .error .INVALID_INPUT ∧
    (handleResize edDemo
      { image := some "pic.png", width := some 0, height := some 10 }
      ⟨[], [("pic.png", [1])], 0, []⟩).2.images ≠ [] ∧
    (handleResize edDemo
      { image := some "pic.png", width := some 0, height := some 10 }
      ⟨[], [("pic.png", [1])], 0, []⟩).2.events =
      [.snap "pic.png" "auto-before-resize"] := by
  refine ⟨by decide, by decide, by decide⟩

/-- C4 amended: a `NOT_FOUND` path failure happens before anything else
and leaves the state untouched; an `INVALID_INPUT` parameter failure
never spawns an editor subprocess, and leaves the state untouched when
the call is not in place — but an in-place call has already pushed the
`auto-before` snapshot when the validation fails (modelled on
`image.resize`); `image.crop_center` moreover runs its live `inspect`
subprocess before its range validation can fail. -/
theorem C4_failed_validation_amended :
    (∀ (ed : Editor) (p : Params) (st : St),
      lookupA st.files (p.image.getD "") = none →
      handleResize ed p st = (.error .NOT_FOUND, st)) ∧
    (∀ (ed : Editor) (p : Params) (st : St) (img : String) (b : Bytes),
      p.image = some img →
      lookupA st.files img = some b →
      outputOrInput p.output img ≠ img →
      (p.width.getD 0 ≤ 0 ∨ p.height.getD 0 ≤ 0) →
      handleResize ed p st = (.error .INVALID_INPUT, st)) ∧
    (∀ (ed : Editor) (p : Params) (st : St) (img : String) (b : Bytes),
      p.image = some img →
      lookupA st.files img = some b →
      outputOrInput p.output img = img →
      (p.width.getD 0 ≤ 0 ∨ p.height.getD 0 ≤ 0) →
      handleResize ed p st = (.error .INVALID_INPUT,
        (snapshot_image img "auto-before-resize" st).2) ∧
      (handleResize ed p st).2.events =
        st.events ++ [.snap img "auto-before-resize"]) ∧
    (∀ (ed : Editor) (p : Params) (st : St) (img : String) (b : Bytes)
        (srcW srcH w h : Int),
      p.image = some img →
      lookupA st.files img = some b →
      ed.dims b = (srcW, srcH) →
      p.width = some w → p.height = some h → 0 < w → 0 < h →
      img.data.head? ≠ some '.' →
      (srcW < w ∨ srcH < h) →
      (handleCropCenter ed p st).1 = .error .INVALID_INPUT ∧
      Event.invoke "inspect" ∈ (handleCropCenter ed p st).2.events) := by
  refine ⟨?_, ?_, ?_, ?_⟩
  · intro ed p st hn
    unfold handleResize
    rw [require_path_eq_err _ _ hn]
  · intro ed p st img b himg hb hdiff hbad
    have hreq : require_path (p.image.getD "") st = .ok img := by
      rw [himg]
      exact require_path_eq_ok img st (by rw [hb]; rfl)
    unfold handleResize
    rw [hreq]
    dsimp only
    rw [maybe_auto_snapshot_skip img p.output "resize" st hdiff]
    dsimp only
    rw [if_pos hbad]
  · intro ed p st img b himg hb hsame hbad
    have hreq : require_path (p.image.getD "") st = .ok img := by
      rw [himg]
      exact require_path_eq_ok img st (by rw [hb]; rfl)
    have heval : handleResize ed p st = (.error .INVALID_INPUT,
        (snapshot_image img ("auto-before-" ++ "resize") st).2) := by
      unfold handleResize
      rw [hreq]
      dsimp only
      rw [maybe_auto_snapshot_inplace img p.output "resize" st b hb hsame]
      dsimp only
      rw [if_pos hbad]
    refine ⟨heval.trans rfl, ?_⟩
    rw [heval]
    rw [snapshot_image_eq img ("auto-before-" ++ "resize") st b hb]
    simp
  · intro ed p st img b srcW srcH w h himg hb hdims hw hh hw0 hh0 hhead hbad
    obtain ⟨st₁, hmas, hb₁⟩ :=
      maybe_auto_snapshot_keeps img p.output "crop-center" st b hb hhead
    have hreq : require_path (p.image.getD "") st = .ok img := by
      rw [himg]
      exact require_path_eq_ok img st (by rw [hb]; rfl)
    have heval : handleCropCenter ed p st =
        (.error .INVALID_INPUT,
         ⟨st₁.images, st₁.files, st₁.clock,
          st₁.events ++ [.invoke "inspect"]⟩) := by
      unfold handleCropCenter
      rw [hreq]
      dsimp only
      rw [hmas]
      dsimp only
      rw [hw, hh]
      simp only [Option.getD_some]
      rw [if_neg (by omega : ¬(w ≤ 0 ∨ h ≤ 0))]
      rw [run_action_inspect ed _ _ b hb₁]
      dsimp only
      rw [hdims]
      dsimp only
      rw [if_pos hbad]
    rw [heval]
    exact ⟨rfl, by simp⟩

/-- C4 witness: concretely, a missing image yields `NOT_FOUND` with the
state unchanged; an invalid width with a distinct output yields
`INVALID_INPUT` with the state unchanged; an invalid width in place
yields `INVALID_INPUT` with exactly one auto-before snapshot event and
no editor invocation; an oversized center-crop fails after its inspect
invocation. -/
theorem C4_failed_validation_amended_witness :
    (handleResize edDemo { image := some "nope.png" }
      ⟨[], [("pic.png", [1])], 0, []⟩ =
      (.error .NOT_FOUND, ⟨[], [("pic.png", [1])], 0, []⟩)) ∧
    (handleResize edDemo
      { image := some "pic.png", width := some 0, height := some 10
        output := some "other.png" }
      ⟨[], [("pic.png", [1])], 0, []⟩ =
      (.error .INVALID_INPUT, ⟨[], [("pic.png", [1])], 0, []⟩)) ∧
    (handleResize edDemo
      { image := some "pic.png", width := some 0, height := some 10 }
      ⟨[], [("pic.png", [1])], 0, []⟩).2.events =
      [.snap "pic.png" "auto-before-resize"] ∧
    ((handleCropCenter edDemo
      { image := some "pic.png", width := some 1200, height := some 10 }
      ⟨[], [("pic.png", [1])], 0, []⟩).1 = .error .INVALID_INPUT ∧
     Event.invoke "inspect" ∈ (handleCropCenter edDemo
      { image := some "pic.png", width := some 1200, height := some 10 }
      ⟨[], [("pic.png", [1])], 0, []⟩).2.events) := by
  refine ⟨?_, ?_, ?_, ?_⟩
  · exact C4_failed_validation_amended.1 edDemo { image := some "nope.png" }
      ⟨[], [("pic.png", [1])], 0, []⟩ (by decide)
  · exact C4_failed_validation_amended.2.1 edDemo
      { image := some "pic.png", width := some 0, height := some 10
        output := some "other.png" }
      ⟨[], [("pic.png", [1])], 0, []⟩ "pic.png" [1] rfl (by decide)
      (by decide) (by decide)
  · have h := (C4_failed_validation_amended.2.2.1 edDemo
      { image := some "pic.png", width := some 0, height := some 10 }
      ⟨[], [("pic.png", [1])], 0, []⟩ "pic.png" [1] rfl (by decide)
      (by decide) (by decide)).2
    exact h.trans (by decide)
  · exact C4_failed_validation_amended.2.2.2 edDemo
      { image := some "pic.png", width := some 1200, height := some 10 }
      ⟨[], [("pic.png", [1])], 0, []⟩ "pic.png" [1] 1000 800 1200 10 rfl
      (by decide) rfl rfl rfl (by decide) (by decide) (by decide) (by decide)

theorem getD_append_pair (l : List String) (x y d : String) :
    (l ++ [x, y]).getD l.length d = x := by
  induction l with
  | nil => rfl
  | cons a rest ih => simpa [List.getD_cons_succ] using ih

theorem pyTake_full (l : List String) :
    pyTake l ((l.length : Int) - 1 + 1) = l := by
  unfold pyTake
  rw [if_pos (by omega)]
  have h : ((l.length : Int) - 1 + 1).toNat = l.length := by omega
  rw [h, List.take_length]

/-- C10 counterexample: a successful in-place `image.resize` on an image
whose history has 3 snapshots with the cursor at 0 leaves the snapshot
count at 3 — not 5 — because the push truncates the two redo-able
snapshots; the snapshot count does not increase by exactly 2. -/
theorem C10_two_snapshots_counterexample :
    (∃ r, (handleResize edDemo
      { image := some "im.png", width := some 10, height := some 10 }
      ⟨[("im.png", ⟨["s0", "s1", "s2"], 0⟩)], [("im.png", [5])], 0, []⟩).1 =
      .ok r) ∧
    ((lookupA (handleResize edDemo
      { image := some "im.png", width := some 10, height := some 10 }
      ⟨[("im.png", ⟨["s0", "s1", "s2"], 0⟩)], [("im.png", [5])], 0, []⟩).2.images
      "im.png").getD ⟨[], -1⟩).snapshots.length = 3 := by
  constructor
  · refine ⟨.did
      { image := "im.png", output := some "im.png",
        width := some 10, height := some 10 }, by decide⟩
  · decide

/-- C10 amended: a successful in-place `image.resize` pushes exactly two
snapshots — `auto-before-resize` (taken before the editor runs, holding
the pre-edit bytes) and `auto-after-resize` (taken after) — onto the
entry truncated at the cursor, so the cursor advances by exactly 2 while
the count increases by exactly 2 only when the cursor was at the last
index; the live file afterwards holds the edited bytes, and a single
undo restores the pre-edit bytes. -/
theorem C10_inplace_edit_amended (ed : Editor) (st : St) (p : Params)
    (img : String) (b : Bytes) (w h : Int) (e : Entry) (before after : String)
    (himg : p.image = some img)
    (hb : lookupA st.files img = some b)
    (hw : p.width = some w) (hh : p.height = some h)
    (hw0 : 0 < w) (hh0 : 0 < h)
    (hsame : outputOrInput p.output img = img)
    (he : (lookupA st.images img).getD ⟨[], -1⟩ = e)
    (hinv : entryInv e)
    (hhead : img.data.head? ≠ some '.')
    (hbef : before = snapshotPath img "auto-before-resize" st.clock)
    (haft : after = snapshotPath img "auto-after-resize" (st.clock + 1)) :
    (handleResize ed p st).1 = .ok (.did
      { image := img, output := some img
        width := some w, height := some h }) ∧
    lookupA (handleResize ed p st).2.images img =
      some ⟨pyTake e.snapshots (e.index + 1) ++ [before, after],
        e.index + 2⟩ ∧
    (handleResize ed p st).2.events = st.events ++
      [.snap img "auto-before-resize", .invoke "resize",
       .snap img "auto-after-resize"] ∧
    lookupA (handleResize ed p st).2.files img = some (ed.edit "resize" b) ∧
    lookupA (handleResize ed p st).2.files before = some b ∧
    (undo_redo img (-1) (handleResize ed p st).2).1 =
      .ok ⟨img, before, e.index + 1,
        (pyTake e.snapshots (e.index + 1)).length + 2⟩ ∧
    lookupA (undo_redo img (-1) (handleResize ed p st).2).2.files img =
      some b ∧
    (e.index = (e.snapshots.length : Int) - 1 →
      (pyTake e.snapshots (e.index + 1) ++ [before, after]).length =
        e.snapshots.length + 2) := by
  subst hbef haft
  have hbp : snapshotPath img "auto-before-resize" st.clock =
      snapshotPath img ("auto-before-" ++ "resize") st.clock := rfl
  have hap : snapshotPath img "auto-after-resize" (st.clock + 1) =
      snapshotPath img ("auto-after-" ++ "resize") (st.clock + 1) := rfl
  rw [hbp, hap]
  set bp := snapshotPath img ("auto-before-" ++ "resize") st.clock with hbpdef
  set ap := snapshotPath img ("auto-after-" ++ "resize") (st.clock + 1)
    with hapdef
  set K := pyTake e.snapshots (e.index + 1) with hKdef
  have hKlen : (K.length : Int) = e.index + 1 := by
    have hidx : 0 ≤ e.index + 1 := by
      rcases hinv.1 with h₁ | h₁
      · have h₂ := hinv.2.mpr h₁
        omega
      · omega
    have hle : (e.index + 1).toNat ≤ e.snapshots.length := by
      rcases hinv.1 with h₁ | h₁
      · have h₂ := hinv.2.mpr h₁
        rw [h₁]
        simp [h₂]
      · omega
    rw [hKdef]
    unfold pyTake
    rw [if_pos hidx, List.length_take]
    omega
  have himgbp : img ≠ bp := ne_snapshotPath hhead _ _ _
  have himgap : img ≠ ap := ne_snapshotPath hhead _ _ _
  have hbpap : bp ≠ ap := by
    rw [hbpdef, hapdef]
    exact snapshotPath_ne img _ _ _ _ 7 (by decide) (by decide) (by decide)
  have hreq : require_path (p.image.getD "") st = .ok img := by
    rw [himg]
    exact require_path_eq_ok img st (by rw [hb]; rfl)
  -- the state after the before-snapshot
  have hst₁ : (snapshot_image img ("auto-before-" ++ "resize") st).2 =
      ⟨insertA st.images img ⟨K ++ [bp], ((K ++ [bp]).length : Int) - 1⟩,
       insertA st.files bp b, st.clock + 1,
       st.events ++ [.snap img ("auto-before-" ++ "resize")]⟩ := by
    rw [snapshot_image_eq img ("auto-before-" ++ "resize") st b hb, he]
  have hb₁ : lookupA (⟨insertA st.images img
      ⟨K ++ [bp], ((K ++ [bp]).length : Int) - 1⟩,
      insertA st.files bp b, st.clock + 1,
      st.events ++ [.snap img ("auto-before-" ++ "resize")]⟩ : St).files img
      = some b :=
    (lookupA_insertA_ne _ _ (Ne.symm himgbp)).trans hb
  have heval : handleResize ed p st = (.ok (.did
      { image := img, output := some img
        width := some w, height := some h }),
      (snapshot_image img ("auto-after-" ++ "resize")
        ⟨insertA st.images img ⟨K ++ [bp], ((K ++ [bp]).length : Int) - 1⟩,
         insertA (insertA st.files bp b) img (ed.edit "resize" b),
         st.clock + 1,
         (st.events ++ [.snap img ("auto-before-" ++ "resize")])
           ++ [.invoke "resize"]⟩).2) := by
    unfold handleResize
    rw [hreq]
    dsimp only
    rw [maybe_auto_snapshot_inplace img p.output "resize" st b hb hsame]
    dsimp only
    rw [hsame, hw, hh]
    simp only [Option.getD_some]
    rw [if_neg (by omega : ¬(w ≤ 0 ∨ h ≤ 0)), hst₁]
    rw [run_action_edit_inplace ed "resize" _ _ b hb₁
      (by decide) (by decide) (by simp [outputOrInput])]
  -- evaluate the after-snapshot
  have hbb : lookupA (insertA (insertA st.files bp b) img
      (ed.edit "resize" b)) img = some (ed.edit "resize" b) :=
    lookupA_insertA_self _ _ _
  have hE₁ : ((lookupA (insertA st.images img
      ⟨K ++ [bp], ((K ++ [bp]).length : Int) - 1⟩) img).getD ⟨[], -1⟩)
      = ⟨K ++ [bp], ((K ++ [bp]).length : Int) - 1⟩ := by
    rw [lookupA_insertA_self]
    rfl
  have hsnap₂ : (snapshot_image img ("auto-after-" ++ "resize")
      ⟨insertA st.images img ⟨K ++ [bp], ((K ++ [bp]).length : Int) - 1⟩,
       insertA (insertA st.files bp b) img (ed.edit "resize" b),
       st.clock + 1,
       (st.events ++ [.snap img ("auto-before-" ++ "resize")])
         ++ [.invoke "resize"]⟩).2 =
      ⟨insertA (insertA st.images img
          ⟨K ++ [bp], ((K ++ [bp]).length : Int) - 1⟩) img
          ⟨(K ++ [bp]) ++ [ap], (((K ++ [bp]) ++ [ap]).length : Int) - 1⟩,
       insertA (insertA (insertA st.files bp b) img (ed.edit "resize" b))
          ap (ed.edit "resize" b),
       st.clock + 2,
       ((st.events ++ [.snap img ("auto-before-" ++ "resize")])
         ++ [.invoke "resize"]) ++ [.snap img ("auto-after-" ++ "resize")]⟩ := by
    rw [snapshot_image_eq img ("auto-after-" ++ "resize") _ _ hbb]
    dsimp only
    rw [hE₁]
    dsimp only
    rw [pyTake_full (K ++ [bp])]
  rw [heval, hsnap₂]
  dsimp only
  have hlen₂ : (((K ++ [bp]) ++ [ap]).length : Int) - 1 = e.index + 2 := by
    simp only [List.length_append, List.length_singleton]
    push_cast
    omega
  have hlookbp : lookupA (insertA (insertA (insertA st.files bp b) img
      (ed.edit "resize" b)) ap (ed.edit "resize" b)) bp = some b := by
    rw [lookupA_insertA_ne _ _ (Ne.symm hbpap),
      lookupA_insertA_ne _ _ himgbp, lookupA_insertA_self]
  have hguard : ¬((((K ++ [bp]) ++ [ap]).length : Int) - 1 + -1 < 0 ∨
      (((K ++ [bp]) ++ [ap]).length : Int) ≤
        (((K ++ [bp]) ++ [ap]).length : Int) - 1 + -1) := by
    simp only [List.length_append, List.length_singleton]
    push_cast
    omega
  have htgt : ((K ++ [bp]) ++ [ap]).getD
      ((((K ++ [bp]) ++ [ap]).length : Int) - 1 + -1).toNat "" = bp := by
    have hn : ((((K ++ [bp]) ++ [ap]).length : Int) - 1 + -1).toNat
        = K.length := by
      simp only [List.length_append, List.length_singleton]
      omega
    rw [hn, List.append_assoc]
    exact getD_append_pair K bp ap ""
  have hidx₃ : (((K ++ [bp]) ++ [ap]).length : Int) - 1 + -1
      = e.index + 1 := by
    simp only [List.length_append, List.length_singleton]
    push_cast
    omega
  have hlen₃ : ((K ++ [bp]) ++ [ap]).length = K.length + 2 := by
    simp only [List.length_append, List.length_singleton]
  have hundo : undo_redo img (-1)
      ⟨insertA (insertA st.images img
          ⟨K ++ [bp], ((K ++ [bp]).length : Int) - 1⟩) img
          ⟨(K ++ [bp]) ++ [ap], (((K ++ [bp]) ++ [ap]).length : Int) - 1⟩,
        insertA (insertA (insertA st.files bp b) img (ed.edit "resize" b))
          ap (ed.edit "resize" b),
        st.clock + 2,
        ((st.events ++ [.snap img ("auto-before-" ++ "resize")])
          ++ [.invoke "resize"]) ++ [.snap img ("auto-after-" ++ "resize")]⟩ =
      (.ok ⟨img, bp, e.index + 1, K.length + 2⟩,
       ⟨insertA (insertA (insertA st.images img
            ⟨K ++ [bp], ((K ++ [bp]).length : Int) - 1⟩) img
            ⟨(K ++ [bp]) ++ [ap], (((K ++ [bp]) ++ [ap]).length : Int) - 1⟩)
            img ⟨(K ++ [bp]) ++ [ap], e.index + 1⟩,
        insertA (insertA (insertA (insertA st.files bp b) img
            (ed.edit "resize" b)) ap (ed.edit "resize" b)) img b,
        st.clock + 2,
        ((st.events ++ [.snap img ("auto-before-" ++ "resize")])
          ++ [.invoke "resize"]) ++ [.snap img ("auto-after-" ++ "resize")]⟩) := by
    unfold undo_redo
    dsimp only
    rw [lookupA_insertA_self]
    dsimp only
    rw [if_neg (by simp : ¬((K ++ [bp]) ++ [ap] = []))]
    rw [if_neg hguard, htgt, hlookbp]
    dsimp only
    rw [hidx₃, hlen₃]
  refine ⟨rfl, ?_, ?_, ?_, ?_, ?_, ?_, ?_⟩
  · rw [lookupA_insertA_self]
    simp only [Option.some.injEq, Entry.mk.injEq]
    refine ⟨by rw [List.append_assoc]; rfl, hlen₂⟩
  · simp
  · rw [lookupA_insertA_ne _ _ (Ne.symm himgap), lookupA_insertA_self]
  · exact hlookbp
  · rw [hundo]
  · rw [hundo]
    dsimp only
    rw [lookupA_insertA_self]
  · intro htip
    have h₂ : ([bp, ap] : List String).length = 2 := rfl
    simp only [List.length_append, h₂]
    omega

/-- C10 witness: a concrete in-place resize of a fresh image pushes the
two snapshots `auto-before-resize` and `auto-after-resize`, moves the
cursor from -1 to 1, leaves the live file edited, and one undo restores
the original bytes. -/
theorem C10_inplace_edit_amended_witness :
    (handleResize edDemo
      { image := some "fresh.png", width := some 10, height := some 20 }
      ⟨[], [("fresh.png", [1])], 0, []⟩).1 = .ok (.did
      { image := "fresh.png", output := some "fresh.png",
        width := some 10, height := some 20 }) ∧
    lookupA (handleResize edDemo
      { image := some "fresh.png", width := some 10, height := some 20 }
      ⟨[], [("fresh.png", [1])], 0, []⟩).2.images "fresh.png" =
      some ⟨[".harness-gimp-history/fresh/0__auto-before-resize.png",
             ".harness-gimp-history/fresh/1__auto-after-resize.png"], 1⟩ ∧
    (handleResize edDemo
      { image := some "fresh.png", width := some 10, height := some 20 }
      ⟨[], [("fresh.png", [1])], 0, []⟩).2.events =
      [.snap "fresh.png" "auto-before-resize", .invoke "resize",
       .snap "fresh.png" "auto-after-resize"] ∧
    lookupA (handleResize edDemo
      { image := some "fresh.png", width := some 10, height := some 20 }
      ⟨[], [("fresh.png", [1])], 0, []⟩).2.files "fresh.png" = some [0, 1] ∧
    lookupA (undo_redo "fresh.png" (-1) (handleResize edDemo
      { image := some "fresh.png", width := some 10, height := some 20 }
      ⟨[], [("fresh.png", [1])], 0, []⟩).2).2.files "fresh.png" =
      some [1] := by
  have h := C10_inplace_edit_amended edDemo
    ⟨[], [("fresh.png", [1])], 0, []⟩
    { image := some "fresh.png", width := some 10, height := some 20 }
    "fresh.png" [1] 10 20 ⟨[], -1⟩
    ".harness-gimp-history/fresh/0__auto-before-resize.png"
    ".harness-gimp-history/fresh/1__auto-after-resize.png"
    rfl (by decide) rfl rfl (by decide) (by decide) (by decide) (by decide)
    (by decide) (by decide) (by decide) (by decide)
  exact ⟨h.1.trans (by decide), h.2.1.trans (by decide),
    (h.2.2.1).trans (by decide), (h.2.2.2.1).trans (by decide),
    (h.2.2.2.2.2.2.1).trans (by decide)⟩

end HarnessGimp
